import Mathlib

/-!
Shallow embedding of `src/spotify_app.py` (Playlist Buddy).

The embedding covers the parts of the program the verified properties are
about: normalization of raw track records, pagination over remote pages,
the per-playlist crawl, deduplication, the two module-level per-user caches
(`library_cache` and `full_library_cache`), and the routes that mutate them
(`load_library`, `_ensure_library_loaded`, `logout`).

Modelling conventions:
- Python dict keys that the source reads with `.get` are `Option` fields; a
  bracket access `d['k']` on a possibly-missing key is a raised `KeyError`,
  modelled with `Except`.
- A remote page fetch (`sp.current_user_saved_tracks`, `sp.next`,
  `sp.playlist_tracks`, `sp.current_user_playlists`) either yields the
  page's items or raises; an environment supplies the sequence of page
  responses as `List (Except Unit _)`.
- The fetchers `fetch_top_artists` and `fetch_top_tracks` feed only the
  formatted summary string built by `summarize_library`; no verified
  property depends on that string's text, so the value cached in
  `library_cache` is modelled as the structured data it is built from.
-/

/-- An artist object inside a raw track payload; the source reads only its
`name` key (`track['artists'][0]['name']`). -/
structure RawArtist where
  name : Option String
  deriving DecidableEq

/-- An album object inside a raw track payload; the source reads only its
`name` key (`track['album']['name']`). -/
structure RawAlbum where
  name : Option String
  deriving DecidableEq

/-- A raw track payload as returned by the remote API. `artists` is `none`
when the key is missing; a present-but-empty artist list is `some []`
(both are falsy for the source's `track.get('artists')` test). -/
structure RawTrack where
  id : Option String
  uri : Option String
  name : Option String
  artists : Option (List RawArtist)
  album : Option RawAlbum
  deriving DecidableEq

/-- One element of a page's `items` list: the wrapper dict whose `track`
key the source probes with `item.get('track')`. -/
structure RawItem where
  track : Option RawTrack
  deriving DecidableEq

/-- A normalized song record, exactly the dict the fetchers append:
`id`, `uri`, `name`, `artist`, `album`, `source`. -/
structure Song where
  id : String
  uri : String
  name : String
  artist : String
  album : String
  source : String
  deriving DecidableEq

/-- A playlist metadata record, exactly the dict `fetch_all_playlist_songs`
appends to `playlists_meta`: `name` and `tracks` (the track count). -/
structure PlaylistMeta where
  name : String
  tracks : Nat
  deriving DecidableEq

/-- A raw playlist object from the `current_user_playlists` pages. `name`
is `none` when the key is missing (the source defaults it to "Untitled");
`tracksTotal` models `item.get('tracks', {}).get('total', 0)` with `none`
for a missing key (the source defaults it to 0). -/
structure RawPlaylist where
  id : Option String
  name : Option String
  tracksTotal : Option Nat
  deriving DecidableEq

/-- Model of `track['artists'][0]['name'] if track.get('artists') else 'Unknown'`.
A missing or empty artist list is falsy, giving the sentinel; a first
artist without a `name` key raises. -/
def artistName (track : RawTrack) : Except Unit String :=
  match track.artists with
  | some (a :: _) =>
    match a.name with
    | some nm => Except.ok nm
    | none => Except.error ()
  | _ => Except.ok ("Unknown")

/-- Model of `track['album']['name'] if track.get('album') else 'Unknown'`. -/
def albumName (track : RawTrack) : Except Unit String :=
  match track.album with
  | some alb =>
    match alb.name with
    | some nm => Except.ok nm
    | none => Except.error ()
  | none => Except.ok ("Unknown")

/-- Normalization of one raw item, as performed inline by both fetchers:
skip the record (`ok none`) when the track payload is missing or its `id`
is missing or empty, otherwise build the song dict; a missing `uri`,
`name`, first-artist `name` or album `name` raises (`error`). -/
def normalizeItem (src : String) (item : RawItem) : Except Unit (Option Song) :=
  match item.track with
  | none => Except.ok none
  | some track =>
    match track.id with
    | none => Except.ok none
    | some tid =>
      if tid = "" then Except.ok none
      else
        match track.uri, track.name with
        | some uri, some nm =>
          match artistName track, albumName track with
          | Except.ok art, Except.ok alb =>
            Except.ok (some ⟨tid, uri, nm, art, alb, src⟩)
          | _, _ => Except.error ()
        | _, _ => Except.error ()

/-- The `for item in results.get('items', [])` body of both fetchers.
The accumulator is the mutable `songs` list; a raised normalization error
is `Except.error` carrying the songs already appended (the Python list
mutation survives the exception). -/
def processItems (src : String) : List RawItem → List Song → Except (List Song) (List Song)
  | [], acc => Except.ok acc
  | it :: rest, acc =>
    match normalizeItem src it with
    | Except.error _ => Except.error acc
    | Except.ok none => processItems src rest acc
    | Except.ok (some s) => processItems src rest (acc ++ [s])

/-- The `while results:` pagination loop shared by the liked-songs fetch
and the per-playlist track fetch. Each list element is one remote page
response; a failed fetch (`Except.error`) or a raised normalization error
ends the run, and the surrounding `except` block means the caller simply
receives the songs accumulated so far. -/
def paginate (src : String) : List (Except Unit (List RawItem)) → List Song → List Song
  | [], acc => acc
  | Except.error _ :: _, acc => acc
  | Except.ok items :: rest, acc =>
    match processItems src items acc with
    | Except.error songs => songs
    | Except.ok acc' => paginate src rest acc'

/-- Source `fetch_all_liked_songs`: paginate over the saved-tracks pages with
source tag "liked", starting from an empty songs list; every failure is
caught and logged, so the function always returns a plain list. -/
def fetch_all_liked_songs (pages : List (Except Unit (List RawItem))) : List Song :=
  paginate ("liked") pages []

/-- The `for item in results.get('items', [])` body of the playlist crawl:
skip falsy playlist entries, record metadata for every playlist, and fetch
the playlist's tracks when it has a truthy id and a positive track count.
`tracksOf pid` is the remote's page sequence for playlist `pid`; the inner
`try` means a failure there only stops that playlist's pagination. -/
def processPlaylists (tracksOf : String → List (Except Unit (List RawItem))) :
    List (Option RawPlaylist) → List Song → List PlaylistMeta →
    List Song × List PlaylistMeta
  | [], accS, accM => (accS, accM)
  | none :: rest, accS, accM => processPlaylists tracksOf rest accS accM
  | some pl :: rest, accS, accM =>
    let plName := pl.name.getD ("Untitled")
    let trackCount := pl.tracksTotal.getD 0
    let accM' := accM ++ [⟨plName, trackCount⟩]
    let accS' :=
      match pl.id with
      | some pid =>
        if pid ≠ "" ∧ 0 < trackCount then
          paginate ("playlist:" ++ plName) (tracksOf pid) accS
        else accS
      | none => accS
    processPlaylists tracksOf rest accS' accM'

/-- The outer `while results:` loop of `fetch_all_playlist_songs` over the
pages of the user's playlist listing; a failed page fetch ends the crawl
with whatever was accumulated (outer `except`). -/
def fetchPlaylistPages (tracksOf : String → List (Except Unit (List RawItem))) :
    List (Except Unit (List (Option RawPlaylist))) → List Song → List PlaylistMeta →
    List Song × List PlaylistMeta
  | [], accS, accM => (accS, accM)
  | Except.error _ :: _, accS, accM => (accS, accM)
  | Except.ok pls :: rest, accS, accM =>
    let p := processPlaylists tracksOf pls accS accM
    fetchPlaylistPages tracksOf rest p.1 p.2

/-- Source `fetch_all_playlist_songs`: returns `(all_songs, playlists_meta)`. -/
def fetch_all_playlist_songs (tracksOf : String → List (Except Unit (List RawItem)))
    (pages : List (Except Unit (List (Option RawPlaylist)))) :
    List Song × List PlaylistMeta :=
  fetchPlaylistPages tracksOf pages [] []

/-- The `seen_ids` loop of `deduplicate_songs`: keep a song when its id is
not yet in the seen set, recording the id. -/
def dedupAux (seen : List String) : List Song → List Song
  | [] => []
  | x :: rest =>
    if x.id ∈ seen then dedupAux seen rest
    else x :: dedupAux (x.id :: seen) rest

/-- Source `deduplicate_songs`: iterate over `liked_songs + playlist_songs`
keeping the first occurrence of every track id. -/
def deduplicate_songs (liked_songs playlist_songs : List Song) : List Song :=
  dedupAux [] (liked_songs ++ playlist_songs)

/-- The value stored in `library_cache` for a user. In the source this is
the string built by `summarize_library` from the deduplicated song list,
the playlist metadata and the top-artist/top-track data; the verified
properties depend only on which users have an entry, so the summary is
modelled as the catalog data it is built from. -/
structure LibrarySummary where
  allSongs : List Song
  playlistsMeta : List PlaylistMeta
  deriving DecidableEq

/-- Point update of a dict modelled as a function; `v = none` is
`dict.pop(k, None)`, `v = some _` is assignment. -/
def updateMap {α : Type} (f : String → Option α) (k : String) (v : Option α) :
    String → Option α :=
  fun x => if x = k then v else f x

/-- The mutable module-level state: the two per-user caches and the
`spotify_user_id` entry of the session. -/
structure AppState where
  library_cache : String → Option LibrarySummary
  full_library_cache : String → Option (List Song)
  sessionUser : Option String

/-- The remote world one request sees: whether `is_authenticated` holds,
the result of `sp.current_user()['id']`, and the page responses for the
saved-tracks listing, the playlist listing, and each playlist's tracks. -/
structure Env where
  authenticated : Bool
  currentUser : Except Unit String
  likedPages : List (Except Unit (List RawItem))
  playlistPages : List (Except Unit (List (Option RawPlaylist)))
  playlistTracks : String → List (Except Unit (List RawItem))

/-- Responses of the `/api/load-library` route that matter here: the 401,
the 500 when the user id lookup raises, and the ready response with its
`total_songs` count (the `summary_preview` slice of the summary string is
not modelled). -/
inductive LoadResp where
  | notAuthenticated
  | userIdError
  | ready (totalSongs : Nat)
  deriving DecidableEq

/-- Source `load_library` (`/api/load-library`): return the cached counts when
both caches already hold the user, otherwise fetch everything, deduplicate,
write both caches and the session, and answer ready. -/
def load_library (env : Env) (st : AppState) : LoadResp × AppState :=
  if env.authenticated then
    match env.currentUser with
    | Except.error _ => (LoadResp.userIdError, st)
    | Except.ok uid =>
      if (st.library_cache uid).isSome && (st.full_library_cache uid).isSome then
        (LoadResp.ready ((st.full_library_cache uid).getD []).length, st)
      else
        let liked := fetch_all_liked_songs env.likedPages
        let pl := fetch_all_playlist_songs env.playlistTracks env.playlistPages
        let allUnique := deduplicate_songs liked pl.1
        (LoadResp.ready allUnique.length,
          { library_cache := updateMap st.library_cache uid (some ⟨allUnique, pl.2⟩),
            full_library_cache := updateMap st.full_library_cache uid (some allUnique),
            sessionUser := some uid })
  else (LoadResp.notAuthenticated, st)

/-- Source `_ensure_library_loaded`: `True` immediately when both caches hold the
user; otherwise rebuild them, where any raise inside the `try` (in the
model, only the user-id lookup can raise: the fetchers catch their own
errors) yields `False` with no cache mutation. -/
def ensure_library_loaded (env : Env) (st : AppState) (user_id : String) :
    Bool × AppState :=
  if (st.library_cache user_id).isSome && (st.full_library_cache user_id).isSome then
    (true, st)
  else
    match env.currentUser with
    | Except.error _ => (false, st)
    | Except.ok uid =>
      let liked := fetch_all_liked_songs env.likedPages
      let pl := fetch_all_playlist_songs env.playlistTracks env.playlistPages
      let allUnique := deduplicate_songs liked pl.1
      (true,
        { library_cache := updateMap st.library_cache uid (some ⟨allUnique, pl.2⟩),
          full_library_cache := updateMap st.full_library_cache uid (some allUnique),
          sessionUser := some uid })

/-- Source `logout` (`/logout`): pop both cache entries for the session's user id
when it is truthy, then clear the session. -/
def logout (st : AppState) : AppState :=
  let uid := st.sessionUser.getD ("")
  if uid ≠ "" then
    { library_cache := updateMap st.library_cache uid none,
      full_library_cache := updateMap st.full_library_cache uid none,
      sessionUser := none }
  else
    { st with sessionUser := none }

/-! Lemmas about `dedupAux` -/

/-- The function `dedupAux` only consults the seen set through membership, so sets with
the same members give the same result. -/
theorem dedupAux_congr (s t : List String) (L : List Song)
    (h : ∀ a, a ∈ s ↔ a ∈ t) : dedupAux s L = dedupAux t L := by
  induction L generalizing s t with
  | nil => rfl
  | cons x L ih =>
    simp only [dedupAux]
    by_cases hx : x.id ∈ s
    · rw [if_pos hx, if_pos ((h x.id).1 hx)]
      exact ih s t h
    · rw [if_neg hx, if_neg (fun hh => hx ((h x.id).2 hh))]
      refine congrArg (x :: ·) (ih _ _ ?_)
      intro a
      simp only [List.mem_cons, h a]

/-- The ids surviving deduplication are exactly the input ids outside the
seen set. -/
theorem mem_map_id_dedupAux (seen : List String) (L : List Song) (a : String) :
    a ∈ (dedupAux seen L).map Song.id ↔ a ∈ L.map Song.id ∧ a ∉ seen := by
  induction L generalizing seen with
  | nil => simp [dedupAux]
  | cons x L ih =>
    simp only [dedupAux]
    by_cases hx : x.id ∈ seen
    · rw [if_pos hx, ih]
      simp only [List.map_cons, List.mem_cons]
      constructor
      · rintro ⟨hm, hn⟩
        exact ⟨Or.inr hm, hn⟩
      · rintro ⟨hm | hm, hn⟩
        · exact absurd (hm ▸ hx) hn
        · exact ⟨hm, hn⟩
    · rw [if_neg hx]
      simp only [List.map_cons, List.mem_cons, ih]
      constructor
      · rintro (rfl | ⟨hm, hn⟩)
        · exact ⟨Or.inl rfl, hx⟩
        · exact ⟨Or.inr hm, fun hs => hn (Or.inr hs)⟩
      · rintro ⟨rfl | hm, hn⟩
        · exact Or.inl rfl
        · by_cases hax : a = x.id
          · exact Or.inl hax
          · exact Or.inr ⟨hm, by simp [List.mem_cons, hax, hn]⟩

/-- Deduplication drops everything whose id is already seen. -/
theorem dedupAux_eq_nil (seen : List String) (M : List Song)
    (h : ∀ x ∈ M, x.id ∈ seen) : dedupAux seen M = [] := by
  induction M with
  | nil => rfl
  | cons x M ih =>
    simp only [dedupAux, if_pos (h x (List.mem_cons_self x M))]
    exact ih fun y hy => h y (List.mem_cons_of_mem x hy)

/-- Unfolding equation for `dedupAux` on a cons cell. -/
theorem dedupAux_cons (seen : List String) (x : Song) (rest : List Song) :
    dedupAux seen (x :: rest) =
      if x.id ∈ seen then dedupAux seen rest
      else x :: dedupAux (x.id :: seen) rest := rfl

/-- Splitting a deduplication run at an append point. -/
theorem dedupAux_append (s : List String) (L M : List Song) :
    dedupAux s (L ++ M) = dedupAux s L ++ dedupAux (L.map Song.id ++ s) M := by
  induction L generalizing s with
  | nil => simp [dedupAux]
  | cons x L ih =>
    simp only [List.cons_append, List.map_cons]
    rw [dedupAux_cons, dedupAux_cons]
    by_cases hx : x.id ∈ s
    · rw [if_pos hx, if_pos hx, ih]
      refine congrArg _ (dedupAux_congr _ _ _ ?_)
      intro a
      constructor
      · intro h; exact List.mem_cons_of_mem _ h
      · intro h
        rcases List.mem_cons.1 h with rfl | h
        · exact List.mem_append.2 (Or.inr hx)
        · exact h
    · rw [if_neg hx, if_neg hx, ih]
      rw [List.cons_append]
      refine congrArg _ (congrArg _ (dedupAux_congr _ _ _ ?_))
      intro a
      simp only [List.cons_append, List.mem_cons, List.mem_append]
      tauto

/-- Deduplicating an already-deduplicated list (same seen set) changes
nothing. -/
theorem dedupAux_idem (seen : List String) (L : List Song) :
    dedupAux seen (dedupAux seen L) = dedupAux seen L := by
  induction L generalizing seen with
  | nil => rfl
  | cons x L ih =>
    simp only [dedupAux]
    by_cases hx : x.id ∈ seen
    · rw [if_pos hx]
      exact ih seen
    · rw [if_neg hx]
      simp only [dedupAux, if_neg hx]
      exact congrArg _ (ih (x.id :: seen))

/-- A list whose ids are pairwise distinct and disjoint from the seen set
passes through deduplication unchanged. -/
theorem dedupAux_eq_self (seen : List String) (L : List Song)
    (hnd : (L.map Song.id).Nodup) (hdis : ∀ x ∈ L, x.id ∉ seen) :
    dedupAux seen L = L := by
  induction L generalizing seen with
  | nil => rfl
  | cons x L ih =>
    simp only [List.map_cons, List.nodup_cons] at hnd
    simp only [dedupAux, if_neg (hdis x (List.mem_cons_self x L))]
    refine congrArg _ (ih _ hnd.2 ?_)
    intro y hy
    simp only [List.mem_cons, not_or]
    refine ⟨?_, hdis y (List.mem_cons_of_mem x hy)⟩
    intro hxy
    exact hnd.1 (hxy ▸ List.mem_map_of_mem Song.id hy)

/-- The ids of a deduplicated list are pairwise distinct. -/
theorem dedupAux_nodup (seen : List String) (L : List Song) :
    ((dedupAux seen L).map Song.id).Nodup := by
  induction L generalizing seen with
  | nil => simp [dedupAux]
  | cons x L ih =>
    simp only [dedupAux]
    by_cases hx : x.id ∈ seen
    · rw [if_pos hx]; exact ih seen
    · rw [if_neg hx]
      simp only [List.map_cons, List.nodup_cons]
      refine ⟨?_, ih (x.id :: seen)⟩
      intro hmem
      exact ((mem_map_id_dedupAux _ _ _).1 hmem).2 (List.mem_cons_self _ _)

/-! Deduplication: claims C3 and C4 -/

/-- A concrete liked song used in counterexamples and witnesses. -/
def songA : Song :=
  ⟨"a", "spotify:track:a", "Song A", "Artist A", "Album A", "liked"⟩

/-- The same track id seen again from a playlist. -/
def songB : Song :=
  ⟨"a", "spotify:track:a", "Song A", "Artist A", "Album A", "playlist:Mix"⟩

/-- A distinct track from a playlist. -/
def songC : Song :=
  ⟨"c", "spotify:track:c", "Song C", "Artist C", "Album C", "playlist:Mix"⟩

/-- C3 (counterexample): the claim says the merge output is all of
`primary` in original order followed by the unseen members of `secondary`;
for `primary = [songA, songA]` and `secondary = []` that would be
`[songA, songA]`, but `deduplicate_songs` also drops duplicates inside
`primary` and returns `[songA]`. -/
theorem merge_counterexample :
    deduplicate_songs [songA, songA] [] ≠ [songA, songA] := by decide

/-- C3 (amended): when the ids of `primary` are pairwise distinct, merge
keeps all of `primary` in original order followed by those members of
`secondary` whose id occurs neither in `primary` nor earlier in
`secondary`, in original order — `primary` wins on every duplicate id —
and the result has pairwise distinct ids, so a track occurring in both
sources appears exactly once, with the provenance of its first-seen
source. -/
theorem merge_primary_wins (P S : List Song) (h : (P.map Song.id).Nodup) :
    deduplicate_songs P S = P ++ dedupAux (P.map Song.id) S ∧
    ((deduplicate_songs P S).map Song.id).Nodup := by
  constructor
  · unfold deduplicate_songs
    rw [dedupAux_append, List.append_nil]
    rw [dedupAux_eq_self [] P h (by intro x hx; simp)]
  · exact dedupAux_nodup [] (P ++ S)

/-- Witness for `merge_primary_wins` at a concrete pair of lists. -/
theorem merge_primary_wins_witness :
    deduplicate_songs [songA] [songB, songC] =
      [songA] ++ dedupAux ([songA].map Song.id) [songB, songC] ∧
    ((deduplicate_songs [songA] [songB, songC]).map Song.id).Nodup :=
  merge_primary_wins [songA] [songB, songC] (by decide)

/-- C4: merge is idempotent in its second argument:
`merge(merge(A,B), B) = merge(A,B)` for every pair of track lists. -/
theorem merge_idempotent (A B : List Song) :
    deduplicate_songs (deduplicate_songs A B) B = deduplicate_songs A B := by
  unfold deduplicate_songs
  rw [dedupAux_append]
  rw [dedupAux_idem]
  have h2 : dedupAux ((dedupAux [] (A ++ B)).map Song.id ++ []) B = [] := by
    rw [List.append_nil]
    apply dedupAux_eq_nil
    intro x hx
    rw [mem_map_id_dedupAux]
    refine ⟨?_, by simp⟩
    rw [List.map_append, List.mem_append]
    exact Or.inr (List.mem_map_of_mem Song.id hx)
  rw [h2, List.append_nil]

/-! Accumulator lemmas for the pagination loops -/

/-- Running `processItems` with a non-empty accumulator just prepends the
accumulator to the result, on both the success and the raise path. -/
theorem processItems_acc (src : String) (items : List RawItem) (acc : List Song) :
    processItems src items acc =
      ((processItems src items []).map (fun l => acc ++ l)).mapError
        (fun l => acc ++ l) := by
  induction items generalizing acc with
  | nil => simp [processItems, Except.map, Except.mapError]
  | cons it rest ih =>
    cases hn : normalizeItem src it with
    | error e => simp [processItems, hn, Except.map, Except.mapError]
    | ok o =>
      cases o with
      | none =>
        simp only [processItems, hn]
        exact ih acc
      | some s =>
        simp only [processItems, hn, List.nil_append]
        rw [ih (acc ++ [s]), ih [s]]
        cases processItems src rest [] <;>
          simp [Except.map, Except.mapError, List.append_assoc]

/-- Running the pagination loop with a non-empty accumulator prepends the
accumulator to the result. -/
theorem paginate_acc (src : String) (pages : List (Except Unit (List RawItem)))
    (acc : List Song) : paginate src pages acc = acc ++ paginate src pages [] := by
  induction pages generalizing acc with
  | nil => simp [paginate]
  | cons p rest ih =>
    cases p with
    | error e => simp [paginate]
    | ok items =>
      simp only [paginate]
      rw [processItems_acc src items acc]
      cases hp : processItems src items [] with
      | error l => simp [Except.map, Except.mapError]
      | ok l =>
        simp only [Except.map, Except.mapError]
        rw [ih (acc ++ l), ih l, List.append_assoc]

/-- Running the playlist crawl body with non-empty accumulators prepends
them to the fresh-run result. -/
theorem processPlaylists_acc (T : String → List (Except Unit (List RawItem)))
    (pls : List (Option RawPlaylist)) (accS : List Song) (accM : List PlaylistMeta) :
    processPlaylists T pls accS accM =
      (accS ++ (processPlaylists T pls [] []).1,
       accM ++ (processPlaylists T pls [] []).2) := by
  induction pls generalizing accS accM with
  | nil => simp [processPlaylists]
  | cons hd rest ih =>
    cases hd with
    | none =>
      simp only [processPlaylists]
      exact ih accS accM
    | some pl =>
      simp only [processPlaylists]
      cases hid : pl.id with
      | none =>
        dsimp only
        simp only [List.nil_append]
        rw [ih accS (accM ++ [PlaylistMeta.mk (pl.name.getD ("Untitled")) (pl.tracksTotal.getD 0)]),
          ih [] [PlaylistMeta.mk (pl.name.getD ("Untitled")) (pl.tracksTotal.getD 0)]]
        simp [List.append_assoc]
      | some pid =>
        dsimp only
        simp only [List.nil_append]
        by_cases hc : pid ≠ "" ∧ 0 < pl.tracksTotal.getD 0
        · simp only [if_pos hc]
          rw [ih (paginate ("playlist:" ++ pl.name.getD ("Untitled")) (T pid) accS)
              (accM ++ [PlaylistMeta.mk (pl.name.getD ("Untitled")) (pl.tracksTotal.getD 0)]),
            ih (paginate ("playlist:" ++ pl.name.getD ("Untitled")) (T pid) [])
              [PlaylistMeta.mk (pl.name.getD ("Untitled")) (pl.tracksTotal.getD 0)]]
          rw [paginate_acc ("playlist:" ++ pl.name.getD ("Untitled")) (T pid) accS]
          simp [List.append_assoc]
        · simp only [if_neg hc]
          rw [ih accS (accM ++ [PlaylistMeta.mk (pl.name.getD ("Untitled")) (pl.tracksTotal.getD 0)]),
            ih [] [PlaylistMeta.mk (pl.name.getD ("Untitled")) (pl.tracksTotal.getD 0)]]
          simp [List.append_assoc]

/-- The playlist crawl body processes an appended list of playlist entries
sequentially. -/
theorem processPlaylists_append (T : String → List (Except Unit (List RawItem)))
    (l1 l2 : List (Option RawPlaylist)) (accS : List Song) (accM : List PlaylistMeta) :
    processPlaylists T (l1 ++ l2) accS accM =
      processPlaylists T l2 (processPlaylists T l1 accS accM).1
        (processPlaylists T l1 accS accM).2 := by
  induction l1 generalizing accS accM with
  | nil => simp [processPlaylists]
  | cons hd rest ih =>
    cases hd with
    | none =>
      simp only [List.cons_append, processPlaylists]
      exact ih accS accM
    | some pl =>
      simp only [List.cons_append, processPlaylists]
      exact ih _ _

/-! Claim C5: per-playlist failure isolation -/

/-- A raised page fetch ends the pagination run with the accumulator. -/
theorem paginate_error_cons (src : String) (e : Unit)
    (rest : List (Except Unit (List RawItem))) (acc : List Song) :
    paginate src (Except.error e :: rest) acc = acc := rfl

/-- C5: a fetch failure for one playlist's items is isolated. With the
playlist listing `before ++ [bad] ++ after`, where the first page fetch of
`bad`'s tracks raises, the crawl still records `bad`'s metadata, collects
no songs for it, and returns exactly the songs of `before` followed by
the songs of `after`: the crawl continues with the next playlist and
items successfully collected from other playlists are still returned. -/
theorem playlist_failure_isolated (T : String → List (Except Unit (List RawItem)))
    (before after : List (Option RawPlaylist)) (bad : RawPlaylist) (pid : String)
    (c : Nat) (ps : List (Except Unit (List RawItem)))
    (hid : bad.id = some pid) (hne : pid ≠ "") (hc : bad.tracksTotal = some c)
    (hpos : 0 < c) (hfail : T pid = Except.error () :: ps) :
    fetch_all_playlist_songs T [Except.ok (before ++ some bad :: after)] =
      ((processPlaylists T before [] []).1 ++ (processPlaylists T after [] []).1,
       (processPlaylists T before [] []).2 ++
         PlaylistMeta.mk (bad.name.getD ("Untitled")) c ::
           (processPlaylists T after [] []).2) := by
  have h1 : fetch_all_playlist_songs T [Except.ok (before ++ some bad :: after)] =
      processPlaylists T (before ++ some bad :: after) [] [] := rfl
  rw [h1, processPlaylists_append]
  simp only [processPlaylists, hid, hc, Option.getD_some]
  rw [if_pos (And.intro hne hpos), hfail, paginate_error_cons]
  rw [processPlaylists_acc T after]
  simp [List.append_assoc]

/-- A playlist whose track-page fetch will fail. -/
def badPl : RawPlaylist := ⟨some ("bad"), some ("Bad List"), some 3⟩

/-- A playlist whose single track page fetches fine. -/
def goodPl : RawPlaylist := ⟨some ("good"), some ("Good List"), some 1⟩

/-- A raw item that normalizes cleanly. -/
def goodItem : RawItem :=
  ⟨some ⟨some ("g1"), some ("spotify:track:g1"), some ("Good Song"),
    some [⟨some ("G Artist")⟩], some ⟨some ("G Album")⟩⟩⟩

/-- Per-playlist track pages: the bad playlist's first page raises, the
good playlist has one clean page. -/
def T5 : String → List (Except Unit (List RawItem)) := fun p =>
  if p = "bad" then [Except.error ()]
  else if p = "good" then [Except.ok [goodItem]]
  else []

/-- Witness for `playlist_failure_isolated` at a concrete crawl. -/
theorem playlist_failure_isolated_witness :
    fetch_all_playlist_songs T5 [Except.ok ([some goodPl] ++ some badPl :: [some goodPl])] =
      ((processPlaylists T5 [some goodPl] [] []).1 ++
         (processPlaylists T5 [some goodPl] [] []).1,
       (processPlaylists T5 [some goodPl] [] []).2 ++
         PlaylistMeta.mk ("Bad List") 3 :: (processPlaylists T5 [some goodPl] [] []).2) :=
  playlist_failure_isolated T5 [some goodPl] [some goodPl] badPl ("bad") 3 []
    rfl (by decide) rfl (by decide) rfl

/-! Claim C2: pagination failure on page K -/

/-- Does normalization of this item complete without raising? -/
def cleanItem (src : String) (it : RawItem) : Bool :=
  match normalizeItem src it with
  | Except.ok _ => true
  | Except.error _ => false

/-- The songs a fully fetched page contributes: the normalization of each
of its items, with id-less records skipped. -/
def pageSongs (src : String) (items : List RawItem) : List Song :=
  items.filterMap fun it =>
    match normalizeItem src it with
    | Except.ok o => o
    | Except.error _ => none

/-- On a page whose items all normalize cleanly, the item loop succeeds
and appends exactly that page's songs. -/
theorem processItems_clean (src : String) (items : List RawItem) (acc : List Song)
    (h : ∀ it ∈ items, cleanItem src it = true) :
    processItems src items acc = Except.ok (acc ++ pageSongs src items) := by
  induction items generalizing acc with
  | nil => simp [processItems, pageSongs]
  | cons it rest ih =>
    have hrest : ∀ x ∈ rest, cleanItem src x = true :=
      fun x hx => h x (List.mem_cons_of_mem it hx)
    cases hn : normalizeItem src it with
    | error e =>
      exfalso
      have hit := h it (List.mem_cons_self it rest)
      simp [cleanItem, hn] at hit
    | ok o =>
      cases o with
      | none =>
        simp only [processItems, hn]
        rw [ih acc hrest]
        simp [pageSongs, List.filterMap_cons, hn]
      | some s =>
        simp only [processItems, hn]
        rw [ih (acc ++ [s]) hrest]
        simp [pageSongs, List.filterMap_cons, hn, List.append_assoc]

/-- Pagination over clean pages followed by a failed fetch collects
exactly the clean pages' songs onto the accumulator. -/
theorem paginate_clean_aux (src : String) (okPages : List (List RawItem))
    (rest : List (Except Unit (List RawItem))) (acc : List Song)
    (h : ∀ items ∈ okPages, ∀ it ∈ items, cleanItem src it = true) :
    paginate src (okPages.map Except.ok ++ Except.error () :: rest) acc =
      acc ++ (okPages.map (pageSongs src)).flatten := by
  induction okPages generalizing acc with
  | nil => simp [paginate]
  | cons pg ps ih =>
    have hpg := h pg (List.mem_cons_self pg ps)
    have hps : ∀ items ∈ ps, ∀ it ∈ items, cleanItem src it = true :=
      fun items hi => h items (List.mem_cons_of_mem pg hi)
    simp only [List.map_cons, List.cons_append, paginate,
      processItems_clean src pg acc hpg]
    have e : (List.map Except.ok ps).append (Except.error () :: rest) =
        List.map Except.ok ps ++ Except.error () :: rest := rfl
    rw [e, ih (acc ++ pageSongs src pg) hps]
    simp [List.append_assoc]

/-- C2 (amended): a pagination run over pages 1..K-1 fetched intact whose
page-K fetch fails returns exactly the normalized items of pages 1..K-1 —
never any item of page K — but no `RemoteUnavailable` failure is
signalled: the failure is caught and logged inside the fetcher, which
hands the partial list to its caller as an ordinary success (both
fetchers run their pages through this `paginate` loop). -/
theorem pagination_failure_result (src : String) (okPages : List (List RawItem))
    (rest : List (Except Unit (List RawItem)))
    (h : ∀ items ∈ okPages, ∀ it ∈ items, cleanItem src it = true) :
    paginate src (okPages.map Except.ok ++ Except.error () :: rest) [] =
      (okPages.map (pageSongs src)).flatten := by
  rw [paginate_clean_aux src okPages rest [] h]
  simp

/-- A raw item lacking a track id (skipped, not fatal). -/
def idlessItem : RawItem :=
  ⟨some ⟨none, some ("spotify:track:x"), some ("No Id"),
    some [⟨some ("X Artist")⟩], some ⟨some ("X Album")⟩⟩⟩

/-- Witness for `pagination_failure_result`: two clean pages, then a
failed fetch of page 3. -/
theorem pagination_failure_result_witness :
    paginate ("liked") ([[goodItem], [idlessItem]].map Except.ok ++
        Except.error () :: []) [] =
      ([[goodItem], [idlessItem]].map (pageSongs ("liked"))).flatten :=
  pagination_failure_result ("liked") [[goodItem], [idlessItem]] [] (by decide)

/-- The initial module state: both caches empty, no session user. -/
def emptyState : AppState := ⟨fun _ => none, fun _ => none, none⟩

/-- An authenticated environment where the only saved-tracks page fetch
raises and the playlist listing is empty. -/
def failEnv : Env :=
  ⟨true, Except.ok ("u"), [Except.error ()], [Except.ok []], fun _ => []⟩

/-- C2 (counterexample): with a network failure on the very first liked
page (K = 1) the fetch returns the union of pages 1..K-1 = [], but,
contrary to the claim, no `RemoteUnavailable` failure is signalled to the
caller: `load_library`, the caller that triggered the run, receives an
ordinary ready response. -/
theorem pagination_failure_counterexample :
    fetch_all_liked_songs [Except.error ()] = [] ∧
    (load_library failEnv emptyState).1 = LoadResp.ready 0 :=
  ⟨rfl, rfl⟩

/-! Claim C1: failed load still caches a partial snapshot -/

/-- An authenticated environment in which every page fetch raises. -/
def c1Env : Env :=
  ⟨true, Except.ok ("u"), [Except.error ()], [Except.error ()], fun _ => []⟩

/-- C1 (counterexample): the full library fetch fails (every page fetch
raises) while user "u" is not yet cached, yet the claimed behaviour does
not happen: the caller receives a ready response, not an error, and both
caches now contain an entry for "u" (an empty partial snapshot). -/
theorem load_failure_counterexample :
    (load_library c1Env emptyState).1 = LoadResp.ready 0 ∧
    ((load_library c1Env emptyState).2.library_cache ("u")).isSome = true ∧
    ((load_library c1Env emptyState).2.full_library_cache ("u")).isSome = true :=
  ⟨rfl, by decide, by decide⟩

/-- C1 (amended): if the full library fetch fails while a user's snapshot
is being loaded (user not yet cached), the error is caught and logged in
the fetchers instead of being surfaced: `load_library` completes, writes
the partial snapshot — whatever was collected before the failure,
possibly nothing — into both caches, and returns a ready response with
the partial count. The statement holds for every environment, in
particular for those whose page fetches fail. -/
theorem load_failure_still_caches (env : Env) (st : AppState) (uid : String)
    (ha : env.authenticated = true) (hu : env.currentUser = Except.ok uid)
    (hnc : ((st.library_cache uid).isSome && (st.full_library_cache uid).isSome) = false) :
    (load_library env st).2.full_library_cache uid =
      some (deduplicate_songs (fetch_all_liked_songs env.likedPages)
        (fetch_all_playlist_songs env.playlistTracks env.playlistPages).1) ∧
    ((load_library env st).2.library_cache uid).isSome = true ∧
    (load_library env st).1 =
      LoadResp.ready (deduplicate_songs (fetch_all_liked_songs env.likedPages)
        (fetch_all_playlist_songs env.playlistTracks env.playlistPages).1).length := by
  simp [load_library, ha, hu, hnc, updateMap]

/-- Witness for `load_failure_still_caches` on the all-fetches-fail
environment. -/
theorem load_failure_still_caches_witness :
    (load_library c1Env emptyState).2.full_library_cache ("u") =
      some (deduplicate_songs (fetch_all_liked_songs c1Env.likedPages)
        (fetch_all_playlist_songs c1Env.playlistTracks c1Env.playlistPages).1) ∧
    ((load_library c1Env emptyState).2.library_cache ("u")).isSome = true ∧
    (load_library c1Env emptyState).1 =
      LoadResp.ready (deduplicate_songs (fetch_all_liked_songs c1Env.likedPages)
        (fetch_all_playlist_songs c1Env.playlistTracks c1Env.playlistPages).1).length :=
  load_failure_still_caches c1Env emptyState ("u") rfl rfl rfl

/-! Claims C6 and C9: normalization of single records -/

/-- Does this raw item lack a track identifier (missing track payload, or
missing or empty `id`)? This is exactly the source's skip condition
`not track or not track.get('id')`. -/
def lacksTrackId (it : RawItem) : Bool :=
  match it.track with
  | none => true
  | some t =>
    match t.id with
    | none => true
    | some s => decide (s = "")

/-- C6: a raw record lacking a track identifier produces no Track and the
normalization does not raise (`ok none`, never `error`); the item loop
skips the record and processes the remaining records unchanged. -/
theorem normalize_missing_id_skipped (src : String) (it : RawItem)
    (rest : List RawItem) (acc : List Song) (h : lacksTrackId it = true) :
    normalizeItem src it = Except.ok none ∧
    processItems src (it :: rest) acc = processItems src rest acc := by
  have h1 : normalizeItem src it = Except.ok none := by
    cases htr : it.track with
    | none => simp [normalizeItem, htr]
    | some t =>
      cases hid : t.id with
      | none => simp [normalizeItem, htr, hid]
      | some tid =>
        have htid : tid = "" := by
          have h2 := h
          simp [lacksTrackId, htr, hid] at h2
          exact h2
        simp [normalizeItem, htr, hid, htid]
  exact ⟨h1, by simp [processItems, h1]⟩

/-- A raw item whose track payload carries an empty id. -/
def emptyIdItem : RawItem :=
  ⟨some ⟨some (""), some ("spotify:track:x"), some ("No Id"),
    some [⟨some ("X Artist")⟩], some ⟨some ("X Album")⟩⟩⟩

/-- Witness for `normalize_missing_id_skipped` on an empty-id record. -/
theorem normalize_missing_id_skipped_witness :
    normalizeItem ("liked") emptyIdItem = Except.ok none ∧
    processItems ("liked") (emptyIdItem :: [goodItem]) [] =
      processItems ("liked") [goodItem] [] :=
  normalize_missing_id_skipped ("liked") emptyIdItem [goodItem] [] (by decide)

/-- Inversion of a successful normalization: the raw record had a track
payload with a non-empty id, `uri` and `name` keys, the artist and album
fields resolved without raising, and the song is built from them. -/
theorem normalizeItem_ok_inv (src : String) (it : RawItem) (s : Song)
    (h : normalizeItem src it = Except.ok (some s)) :
    ∃ t tid uri nm art alb, it.track = some t ∧ t.id = some tid ∧ tid ≠ "" ∧
      t.uri = some uri ∧ t.name = some nm ∧ artistName t = Except.ok art ∧
      albumName t = Except.ok alb ∧ s = ⟨tid, uri, nm, art, alb, src⟩ := by
  cases htr : it.track with
  | none => simp [normalizeItem, htr] at h
  | some t =>
    cases hid : t.id with
    | none => simp [normalizeItem, htr, hid] at h
    | some tid =>
      by_cases htid : tid = ""
      · simp [normalizeItem, htr, hid, htid] at h
      · cases huri : t.uri with
        | none => simp [normalizeItem, htr, hid, htid, huri] at h
        | some uri =>
          cases hnm : t.name with
          | none => simp [normalizeItem, htr, hid, htid, huri, hnm] at h
          | some nm =>
            cases hart : artistName t with
            | error e => simp [normalizeItem, htr, hid, htid, huri, hnm, hart] at h
            | ok art =>
              cases halb : albumName t with
              | error e =>
                simp [normalizeItem, htr, hid, htid, huri, hnm, hart, halb] at h
              | ok alb =>
                refine ⟨t, tid, uri, nm, art, alb, rfl, hid, htid, huri, hnm,
                  hart, halb, ?_⟩
                simp [normalizeItem, htr, hid, htid, huri, hnm, hart, halb] at h
                exact h.symm

/-- Every song a fetcher admits has a non-empty id. -/
theorem normalizeItem_ok_id (src : String) (it : RawItem) (s : Song)
    (h : normalizeItem src it = Except.ok (some s)) : s.id ≠ "" := by
  obtain ⟨t, tid, uri, nm, art, alb, _, _, htid, _, _, _, _, rfl⟩ :=
    normalizeItem_ok_inv src it s h
  exact htid

/-- The artist field as the spec's normalizer contract states it: the
first artist's name, or the sentinel "Unknown" when the artist list is
empty or missing (spec-side definition, compared against the code). -/
def artistPerSpec (it : RawItem) (s : Song) : Bool :=
  match it.track with
  | none => false
  | some t =>
    match t.artists with
    | some (a :: _) => a.name == some s.artist
    | _ => s.artist == "Unknown"

/-- C9: for every raw track record admitted into the catalog, the
normalized `artist` field equals the first artist's name, or "Unknown"
when the record's artist list is empty or missing. -/
theorem artist_field_correct (src : String) (it : RawItem) (s : Song)
    (h : normalizeItem src it = Except.ok (some s)) : artistPerSpec it s = true := by
  obtain ⟨t, tid, uri, nm, art, alb, htr, hid, htid, huri, hnm, ha, hb, rfl⟩ :=
    normalizeItem_ok_inv src it s h
  cases harts : t.artists with
  | none =>
    have : art = "Unknown" := by simp [artistName, harts] at ha; exact ha.symm
    simp [artistPerSpec, htr, harts, this]
  | some la =>
    cases la with
    | nil =>
      have : art = "Unknown" := by simp [artistName, harts] at ha; exact ha.symm
      simp [artistPerSpec, htr, harts, this]
    | cons a as =>
      cases hname : a.name with
      | none => simp [artistName, harts, hname] at ha
      | some an =>
        have : art = an := by simp [artistName, harts, hname] at ha; exact ha.symm
        simp [artistPerSpec, htr, harts, hname, this]

/-- The normalization of `goodItem` with source "liked". -/
def goodSong : Song :=
  ⟨"g1", "spotify:track:g1", "Good Song", "G Artist", "G Album", "liked"⟩

/-- Witness for `artist_field_correct` on a concrete admitted record. -/
theorem artist_field_correct_witness : artistPerSpec goodItem goodSong = true :=
  artist_field_correct ("liked") goodItem goodSong rfl

/-! Claim C7: non-empty ids in every cached catalog -/

/-- The songs list an item-loop run left behind, whether it finished or
raised. -/
def exceptSongs (r : Except (List Song) (List Song)) : List Song :=
  match r with
  | Except.ok l => l
  | Except.error l => l

/-- Every song the item loop adds beyond the accumulator has a non-empty
id. -/
theorem processItems_mem (src : String) (items : List RawItem) (acc : List Song)
    (s : Song) (h : s ∈ exceptSongs (processItems src items acc)) :
    s ∈ acc ∨ s.id ≠ "" := by
  induction items generalizing acc with
  | nil => exact Or.inl h
  | cons it rest ih =>
    cases hn : normalizeItem src it with
    | error e =>
      simp only [processItems, hn, exceptSongs] at h
      exact Or.inl h
    | ok o =>
      cases o with
      | none =>
        simp only [processItems, hn] at h
        exact ih acc h
      | some x =>
        simp only [processItems, hn] at h
        rcases ih (acc ++ [x]) h with hin | hne
        · rcases List.mem_append.1 hin with h2 | h2
          · exact Or.inl h2
          · refine Or.inr ?_
            have : s = x := by simpa using h2
            exact this ▸ normalizeItem_ok_id src it x hn
        · exact Or.inr hne

/-- Every song a pagination run adds beyond the accumulator has a
non-empty id. -/
theorem paginate_mem (src : String) (pages : List (Except Unit (List RawItem)))
    (acc : List Song) (s : Song) (h : s ∈ paginate src pages acc) :
    s ∈ acc ∨ s.id ≠ "" := by
  induction pages generalizing acc with
  | nil => exact Or.inl h
  | cons p rest ih =>
    cases p with
    | error e => exact Or.inl h
    | ok items =>
      simp only [paginate] at h
      cases hp : processItems src items acc with
      | error l =>
        rw [hp] at h
        exact processItems_mem src items acc s (by rw [hp]; exact h)
      | ok l =>
        rw [hp] at h
        rcases ih l h with hin | hne
        · exact processItems_mem src items acc s (by rw [hp]; exact hin)
        · exact Or.inr hne

/-- Every song the playlist crawl body adds beyond the accumulator has a
non-empty id. -/
theorem processPlaylists_mem (T : String → List (Except Unit (List RawItem)))
    (pls : List (Option RawPlaylist)) (accS : List Song) (accM : List PlaylistMeta)
    (s : Song) (h : s ∈ (processPlaylists T pls accS accM).1) :
    s ∈ accS ∨ s.id ≠ "" := by
  induction pls generalizing accS accM with
  | nil => exact Or.inl h
  | cons hd rest ih =>
    cases hd with
    | none => exact ih accS accM h
    | some pl =>
      simp only [processPlaylists] at h
      cases hid : pl.id with
      | none =>
        rw [hid] at h
        exact ih _ _ h
      | some pid =>
        rw [hid] at h
        dsimp only at h
        by_cases hc : pid ≠ "" ∧ 0 < pl.tracksTotal.getD 0
        · rw [if_pos hc] at h
          rcases ih _ _ h with hin | hne
          · exact paginate_mem _ _ _ _ hin
          · exact Or.inr hne
        · rw [if_neg hc] at h
          exact ih _ _ h

/-- Every song the playlist-page loop adds beyond the accumulator has a
non-empty id. -/
theorem fetchPlaylistPages_mem (T : String → List (Except Unit (List RawItem)))
    (pages : List (Except Unit (List (Option RawPlaylist)))) (accS : List Song)
    (accM : List PlaylistMeta) (s : Song)
    (h : s ∈ (fetchPlaylistPages T pages accS accM).1) : s ∈ accS ∨ s.id ≠ "" := by
  induction pages generalizing accS accM with
  | nil => exact Or.inl h
  | cons p rest ih =>
    cases p with
    | error e => exact Or.inl h
    | ok pls =>
      simp only [fetchPlaylistPages] at h
      rcases ih _ _ h with hin | hne
      · exact processPlaylists_mem T pls accS accM s hin
      · exact Or.inr hne

/-- Deduplication only keeps songs of its input. -/
theorem dedupAux_subset (seen : List String) (L : List Song) (x : Song)
    (h : x ∈ dedupAux seen L) : x ∈ L := by
  induction L generalizing seen with
  | nil => exact absurd h (List.not_mem_nil x)
  | cons y rest ih =>
    rw [dedupAux_cons] at h
    by_cases hy : y.id ∈ seen
    · rw [if_pos hy] at h
      exact List.mem_cons_of_mem y (ih seen h)
    · rw [if_neg hy] at h
      rcases List.mem_cons.1 h with rfl | h2
      · exact List.mem_cons_self x rest
      · exact List.mem_cons_of_mem y (ih (y.id :: seen) h2)

/-- All songs in a list have a non-empty id. -/
def songIdsNonEmpty (l : List Song) : Prop := ∀ s ∈ l, s.id ≠ ""

/-- The cache invariant: every cached full-library catalog consists of
songs with non-empty ids. -/
def CacheInv (st : AppState) : Prop :=
  ∀ u l, st.full_library_cache u = some l → songIdsNonEmpty l

/-- The catalog a library load stores satisfies the id invariant. -/
theorem allUnique_ids (env : Env) :
    songIdsNonEmpty (deduplicate_songs (fetch_all_liked_songs env.likedPages)
      (fetch_all_playlist_songs env.playlistTracks env.playlistPages).1) := by
  intro s hs
  rcases List.mem_append.1 (dedupAux_subset [] _ s hs) with h | h
  · rcases paginate_mem ("liked") env.likedPages [] s h with h2 | h2
    · exact absurd h2 (List.not_mem_nil s)
    · exact h2
  · rcases fetchPlaylistPages_mem env.playlistTracks env.playlistPages [] [] s h with
      h2 | h2
    · exact absurd h2 (List.not_mem_nil s)
    · exact h2

/-- The route `load_library` preserves the cache invariant. -/
theorem cacheInv_load (env : Env) (st : AppState) (hinv : CacheInv st) :
    CacheInv (load_library env st).2 := by
  intro u' l hl
  cases hauth : env.authenticated with
  | false =>
    simp only [load_library, hauth, Bool.false_eq_true, if_false] at hl
    exact hinv u' l hl
  | true =>
    cases hcu : env.currentUser with
    | error e =>
      simp only [load_library, hauth, if_true, hcu] at hl
      exact hinv u' l hl
    | ok uid =>
      by_cases hc : ((st.library_cache uid).isSome && (st.full_library_cache uid).isSome) = true
      · simp only [load_library, hauth, if_true, hcu, hc] at hl
        exact hinv u' l hl
      · simp only [load_library, hauth, if_true, hcu, hc, Bool.false_eq_true,
          if_false, updateMap] at hl
        by_cases huu : u' = uid
        · rw [if_pos huu] at hl
          have hll : deduplicate_songs (fetch_all_liked_songs env.likedPages)
              (fetch_all_playlist_songs env.playlistTracks env.playlistPages).1 = l := by
            simpa using hl
          exact hll ▸ allUnique_ids env
        · rw [if_neg huu] at hl
          exact hinv u' l hl

/-- The helper `_ensure_library_loaded` preserves the cache invariant. -/
theorem cacheInv_ensure (env : Env) (st : AppState) (u : String) (hinv : CacheInv st) :
    CacheInv (ensure_library_loaded env st u).2 := by
  intro u' l hl
  by_cases hc : ((st.library_cache u).isSome && (st.full_library_cache u).isSome) = true
  · simp only [ensure_library_loaded, hc] at hl
    exact hinv u' l hl
  · cases hcu : env.currentUser with
    | error e =>
      simp only [ensure_library_loaded, hc, Bool.false_eq_true, if_false, hcu] at hl
      exact hinv u' l hl
    | ok uid =>
      simp only [ensure_library_loaded, hc, Bool.false_eq_true, if_false, hcu,
        updateMap] at hl
      by_cases huu : u' = uid
      · rw [if_pos huu] at hl
        have hll : deduplicate_songs (fetch_all_liked_songs env.likedPages)
            (fetch_all_playlist_songs env.playlistTracks env.playlistPages).1 = l := by
          simpa using hl
        exact hll ▸ allUnique_ids env
      · rw [if_neg huu] at hl
        exact hinv u' l hl

/-- The route `logout` preserves the cache invariant. -/
theorem cacheInv_logout (st : AppState) (hinv : CacheInv st) : CacheInv (logout st) := by
  intro u' l hl
  simp only [logout, updateMap] at hl
  split at hl
  · dsimp only at hl
    simp only [updateMap] at hl
    split at hl
    · exact absurd hl (by simp)
    · exact hinv u' l hl
  · dsimp only at hl
    exact hinv u' l hl

/-- C7: every track in a cached catalog has a non-empty id. The fetchers
only admit songs with non-empty ids, deduplication preserves the
property, and every cache-mutating operation (`load_library`,
`_ensure_library_loaded`, `logout`) preserves the cache invariant. -/
theorem catalog_ids_nonempty (env : Env) (st : AppState) (u : String)
    (hinv : CacheInv st) :
    songIdsNonEmpty (fetch_all_liked_songs env.likedPages) ∧
    songIdsNonEmpty (fetch_all_playlist_songs env.playlistTracks env.playlistPages).1 ∧
    (∀ liked ps, songIdsNonEmpty liked → songIdsNonEmpty ps →
      songIdsNonEmpty (deduplicate_songs liked ps)) ∧
    CacheInv (load_library env st).2 ∧
    CacheInv (ensure_library_loaded env st u).2 ∧
    CacheInv (logout st) := by
  refine ⟨?_, ?_, ?_, cacheInv_load env st hinv, cacheInv_ensure env st u hinv,
    cacheInv_logout st hinv⟩
  · intro s hs
    rcases paginate_mem ("liked") env.likedPages [] s hs with h2 | h2
    · exact absurd h2 (List.not_mem_nil s)
    · exact h2
  · intro s hs
    rcases fetchPlaylistPages_mem env.playlistTracks env.playlistPages [] [] s hs with
      h2 | h2
    · exact absurd h2 (List.not_mem_nil s)
    · exact h2
  · intro liked ps h1 h2 s hs
    rcases List.mem_append.1 (dedupAux_subset [] _ s hs) with h3 | h3
    · exact h1 s h3
    · exact h2 s h3

/-- The empty state satisfies the cache invariant. -/
theorem cacheInv_empty : CacheInv emptyState := by
  intro u l hl
  simp [emptyState] at hl

/-- An environment whose single liked page holds one clean item. -/
def c7Env : Env :=
  ⟨true, Except.ok ("u"), [Except.ok [goodItem]], [Except.ok []], fun _ => []⟩

/-- Witness for `catalog_ids_nonempty`: the concrete fetched song has a
non-empty id. -/
theorem catalog_ids_nonempty_witness : goodSong.id ≠ "" :=
  (catalog_ids_nonempty c7Env emptyState ("u") cacheInv_empty).1 goodSong (by decide)

/-! Claim C8: idempotence of the library load -/

/-- C8: loading is idempotent. After any `load_library` call for an
authenticated user `uid`, a further call — under any environment at all
that still authenticates and resolves the same user, so in particular with
no dependence on any remote page data: no remote fetch is performed —
returns the same response (hence the same track count as the first
successful call) and leaves the state, in particular both cache entries,
exactly as the first call left them; `_ensure_library_loaded` likewise
returns `True` without touching the state. -/
theorem load_library_idempotent (env env2 : Env) (st : AppState) (uid : String)
    (ha : env.authenticated = true) (hu : env.currentUser = Except.ok uid)
    (ha2 : env2.authenticated = true) (hu2 : env2.currentUser = Except.ok uid) :
    load_library env2 (load_library env st).2 = load_library env st ∧
    ensure_library_loaded env2 (load_library env st).2 uid =
      (true, (load_library env st).2) := by
  by_cases hc : ((st.library_cache uid).isSome && (st.full_library_cache uid).isSome) = true
  · have h1 : load_library env st =
        (LoadResp.ready ((st.full_library_cache uid).getD []).length, st) := by
      simp [load_library, ha, hu, hc]
    rw [h1]
    constructor
    · simp [load_library, ha2, hu2, hc]
    · simp [ensure_library_loaded, hc]
  · constructor
    · simp [load_library, ha, hu, ha2, hu2, hc, updateMap]
    · simp [load_library, ensure_library_loaded, ha, hu, hc, updateMap]

/-- An environment with one clean liked page for user "u". -/
def c8Env : Env :=
  ⟨true, Except.ok ("u"), [Except.ok [goodItem]], [Except.ok []], fun _ => []⟩

/-- An environment for the second call whose every page fetch raises: the
result being unchanged shows no remote data is consulted. -/
def c8Env2 : Env :=
  ⟨true, Except.ok ("u"), [Except.error ()], [Except.error ()], fun _ => []⟩

/-- Witness for `load_library_idempotent`: a first load for "u", then a
second call against a dead remote. -/
theorem load_library_idempotent_witness :
    load_library c8Env2 (load_library c8Env emptyState).2 = load_library c8Env emptyState ∧
    ensure_library_loaded c8Env2 (load_library c8Env emptyState).2 ("u") =
      (true, (load_library c8Env emptyState).2) :=
  load_library_idempotent c8Env c8Env2 emptyState ("u") rfl rfl rfl rfl

/-! Claim C10: logout clears exactly the invoked user -/

/-- C10: logout removes all cached state for the session's user — after
it neither `library_cache` nor `full_library_cache` contains an entry for
that user and the session is cleared — and the cache entries of every
other user are unchanged. -/
theorem logout_clears_user (st : AppState) (u : String)
    (hs : st.sessionUser = some u) (hne : u ≠ "") :
    (logout st).library_cache u = none ∧
    (logout st).full_library_cache u = none ∧
    (logout st).sessionUser = none ∧
    ∀ v, v ≠ u →
      (logout st).library_cache v = st.library_cache v ∧
      (logout st).full_library_cache v = st.full_library_cache v := by
  simp only [logout, hs, Option.getD_some]
  rw [if_pos hne]
  refine ⟨by simp [updateMap], by simp [updateMap], rfl, ?_⟩
  intro v hv
  exact ⟨by simp [updateMap, hv], by simp [updateMap, hv]⟩

/-- A state holding cache entries for users "u" and "w", with "u" in the
session. -/
def st10 : AppState :=
  ⟨updateMap (updateMap (fun _ => none) "w" (some ⟨[songC], []⟩)) "u"
     (some ⟨[goodSong], []⟩),
   updateMap (updateMap (fun _ => none) "w" (some [songC])) "u" (some [goodSong]),
   some ("u")⟩

/-- Witness for `logout_clears_user`: "u" is cleared from both caches
while "w" keeps its entry. -/
theorem logout_clears_user_witness :
    (logout st10).library_cache ("u") = none ∧
    (logout st10).full_library_cache ("u") = none ∧
    (logout st10).full_library_cache ("w") = st10.full_library_cache ("w") :=
  ⟨(logout_clears_user st10 ("u") rfl (by decide)).1,
   (logout_clears_user st10 ("u") rfl (by decide)).2.1,
   ((logout_clears_user st10 ("u") rfl (by decide)).2.2.2 ("w") (by decide)).2⟩
